import Mathlib

/-!
Verification development for the supportpal-prom-exporter repository
(`exporter.go`).  The Go source is shallowly embedded: pure fragments become
Lean functions, the HTTP upstream becomes an explicit response function, the
two memoizing caches become explicit values threaded through the calls, and
the per-cycle mutation of the Prometheus gauge vectors becomes explicit state
passing over association lists.  Machine integers are modelled as `Int`/`Nat`
(no value in the program approaches an overflow boundary), and fallible calls
return `Option` or a dedicated outcome type.
-/

namespace SP

/-! ## String helpers

`strings.ToLower`, `strings.Replace` and `strings.ReplaceAll` are modelled by
`String.toLower`, `String.replace`.  The slug transform is modelled from the
spec: the external gosimple/slug library lower-cases, collapses runs of
non-alphanumeric characters into a single `-`, and trims leading/trailing
separators; its transliteration/substitution tables for non-ASCII input are
elided (no claim exercises them). -/

/-- One character of the slug transform: alphanumerics are lower-cased,
everything else becomes a `-` separator. -/
def slugCharMap (c : Char) : Char :=
  if c.isAlphanum then c.toLower else '-'

/-- Collapse adjacent `-` separators into one. -/
def collapseDashes : List Char → List Char
  | [] => []
  | c :: rest =>
    let tail := collapseDashes rest
    if c = '-' then
      match tail with
      | '-' :: t => '-' :: t
      | _ => '-' :: tail
    else c :: tail

/-- Drop leading and trailing `-` separators. -/
def trimDashes (l : List Char) : List Char :=
  ((l.dropWhile (· = '-')).reverse.dropWhile (· = '-')).reverse

/-- Modelled from the spec: `slug.Make` of the external gosimple/slug
library — lower-casing, non-alphanumeric runs collapsed to a single `-`,
separators trimmed at both ends. -/
def slugMake (s : String) : String :=
  String.mk (trimDashes (collapseDashes (s.toList.map slugCharMap)))

/-- Model of Go `strings.ToLower` (`String.toLower` is equivalent but its
byte-position internals do not reduce in the kernel, so the character-list
form is used). -/
def strToLower (s : String) : String :=
  String.mk (s.toList.map Char.toLower)

/-- Model of Go `strings.Replace(s, " ", "", -1)`: remove every space. -/
def stripSpaces (s : String) : String :=
  String.mk (s.toList.filter (fun c => c ≠ ' '))

/-- Model of Go `strings.ReplaceAll(s, "-", "_")` for the single-character
pattern: map `-` to `_`. -/
def dashToUnderscore (s : String) : String :=
  String.mk (s.toList.map (fun c => if c = '-' then '_' else c))

/-- Numeric value of a digit list (most significant first). -/
def digitsToNat (cs : List Char) : Nat :=
  cs.foldl (fun a c => a * 10 + (c.toNat - 48)) 0

/-- A non-empty all-digit character list. -/
def isDigits (cs : List Char) : Bool :=
  !cs.isEmpty && cs.all (fun c => c.isDigit)

/-- Modelled from the spec: the first return value of Go's `strconv.Atoi` —
the parsed integer on success and `0` on a syntax error (the code in
`collectMetrics` discards the error and uses the value as-is). -/
def goAtoi (s : String) : Int :=
  match s.toList with
  | '+' :: rest => if isDigits rest then (digitsToNat rest : Int) else 0
  | '-' :: rest => if isDigits rest then -(digitsToNat rest : Int) else 0
  | cs => if isDigits cs then (digitsToNat cs : Int) else 0

/-! ## Go time model

`collectMetrics` filters tickets with
`time.Unix(ticket.CreatedAt, 0).AddDate(1, 0, 0).Before(time.Now())`.
The Go time package is modelled as the proleptic Gregorian calendar in a UTC
location at one-second granularity: an instant is its Unix second count
(`Int`), `AddDate(1,0,0)` decomposes the instant into a civil date, adds one
to the year and recomposes (day overflow — February 29 of a leap year mapped
into a non-leap year — normalizes forward into March 1, exactly as Go's
`Date` does), and `Before` is strict `<` on instants. -/

/-- Gregorian leap-year predicate. -/
def isLeap (y : Int) : Bool :=
  y % 4 == 0 && (y % 100 != 0 || y % 400 == 0)

/-- Number of days of a calendar year. -/
def daysInYear (y : Int) : Int :=
  if isLeap y then 366 else 365

/-- Cumulative days before month `m` (1-based) of a year; the `_ => 365 + k`
row is a sentinel for out-of-range month numbers, never produced here. -/
def daysBeforeMonth (l : Bool) (m : Nat) : Int :=
  let k : Int := if l then 1 else 0
  match m with
  | 1 => 0
  | 2 => 31
  | 3 => 59 + k
  | 4 => 90 + k
  | 5 => 120 + k
  | 6 => 151 + k
  | 7 => 181 + k
  | 8 => 212 + k
  | 9 => 243 + k
  | 10 => 273 + k
  | 11 => 304 + k
  | 12 => 334 + k
  | _ => 365 + k

/-- Month (1..12) containing day-of-year `doy` (0-based). -/
def monthFromDoy (l : Bool) (doy : Int) : Nat :=
  if doy < daysBeforeMonth l 2 then 1
  else if doy < daysBeforeMonth l 3 then 2
  else if doy < daysBeforeMonth l 4 then 3
  else if doy < daysBeforeMonth l 5 then 4
  else if doy < daysBeforeMonth l 6 then 5
  else if doy < daysBeforeMonth l 7 then 6
  else if doy < daysBeforeMonth l 8 then 7
  else if doy < daysBeforeMonth l 9 then 8
  else if doy < daysBeforeMonth l 10 then 9
  else if doy < daysBeforeMonth l 11 then 10
  else if doy < daysBeforeMonth l 12 then 11
  else 12

/-- Days from 1970-01-01 to the start of year `1970 + k`. -/
def daysFrom1970 : Nat → Int
  | 0 => 0
  | k + 1 => daysFrom1970 k + daysInYear (1970 + k)

/-- Days (negative) from 1970-01-01 back to the start of year `1970 - k`. -/
def daysBefore1970 : Nat → Int
  | 0 => 0
  | k + 1 => daysBefore1970 k - daysInYear (1970 - (k + 1))

/-- Days from 1970-01-01 to the start of year `y` (negative before 1970). -/
def daysToYear (y : Int) : Int :=
  if 1970 ≤ y then daysFrom1970 (y - 1970).toNat else daysBefore1970 (1970 - y).toNat

/-- Fuel that strictly dominates the step count of `yearFromDaysF`. -/
def yfdFuel (n : Int) : Nat :=
  (if n < 0 then 366 - n else n).toNat + 1

/-- Locate the calendar year containing absolute day `n` (days since
1970-01-01), starting the search at year `y`; returns the year and the
0-based day-of-year.  Structural recursion on explicit fuel so that the
kernel can evaluate it; `yfdFuel` is always enough fuel. -/
def yearFromDaysF : Nat → Int → Int → Option (Int × Int)
  | 0, _, _ => none
  | fuel + 1, y, n =>
    if n < 0 then yearFromDaysF fuel (y - 1) (n + daysInYear (y - 1))
    else if daysInYear y ≤ n then yearFromDaysF fuel (y + 1) (n - daysInYear y)
    else some (y, n)

/-- Recomposition step of `addDate1Year`: from absolute day `n` and
second-of-day `s`, with the civil decomposition `some (y, doy)` of `n`,
compute the instant one calendar year later (same month and day-of-month,
year incremented; day overflow normalizes forward exactly as Go's `Date`). -/
def addDate1YearAux (n s : Int) : Option (Int × Int) → Int
  | some (y, doy) =>
    86400 * (daysToYear (y + 1) +
      daysBeforeMonth (isLeap (y + 1)) (monthFromDoy (isLeap y) doy) +
      (doy - daysBeforeMonth (isLeap y) (monthFromDoy (isLeap y) doy) + 1 - 1)) + s
  | none => 86400 * n + s

/-- Model of Go `time.Unix(t, 0).AddDate(1, 0, 0).Unix()` (UTC): decompose
`t` into civil year/month/day plus second-of-day, add one to the year and
recompose with the same month/day (February 29 normalizing into March 1 of
the following non-leap year). -/
def addDate1Year (t : Int) : Int :=
  addDate1YearAux (t.ediv 86400) (t.emod 86400)
    (yearFromDaysF (yfdFuel (t.ediv 86400)) 1970 (t.ediv 86400))

/-- The age filter of `collectMetrics`: a ticket is skipped when
`time.Unix(createdAt, 0).AddDate(1, 0, 0).Before(now)` holds. -/
def skipTicket (createdAt now : Int) : Bool :=
  addDate1Year createdAt < now

/-! ## Data model (`exporter.go` struct types)

JSON envelopes are modelled at decoded granularity: an outbound request
either fails at transport level, succeeds but fails to decode (Go's
`json.Unmarshal` then leaves a partially-filled struct, which the code may
still use), or decodes fully.  The upstream API is an explicit response
function per endpoint. -/

/-- `Organization` (`id`, `name`). -/
structure Organization where
  id : Int
  name : String
deriving DecidableEq

/-- The zero value `Organization{}` that a Go map lookup yields on a missing
key and that the cache-hit test compares against. -/
def orgZero : Organization := ⟨0, ""⟩

/-- `respGetOrganization`: the organization envelope; `data` is a pointer in
Go, hence `Option`. -/
structure RespGetOrganization where
  status : String
  message : String
  data : Option Organization
deriving DecidableEq

/-- Result of one `requestAPI` call followed by `json.Unmarshal` into a
value of type `α`: transport error, decode error (carrying the partially
decoded value), or full decode. -/
inductive ApiResult (α : Type) where
  | transportErr : ApiResult α
  | decodeErr : α → ApiResult α
  | ok : α → ApiResult α
deriving DecidableEq

/-- Outcome of `getOrganization`: a nil-pointer dereference of
`organization.Data` (process crash), an error return, or a successful
return. -/
inductive OrgOutcome where
  | crash : OrgOutcome
  | err : OrgOutcome
  | ok : RespGetOrganization → OrgOutcome
deriving DecidableEq

/-- The organization cache `map[int]Organization`: a Go map lookup returns
the zero value on a missing key, so the cache is a total function. -/
abbrev OrgCache : Type := Int → Organization

/-- `getOrganization`: cache hit iff the cached value differs from the zero
`Organization{}`; on a miss, issue the request (counted by the third
component), propagate transport and decode errors, store `*organization.Data`
(crashing when `Data` is nil), and return the decoded envelope. -/
def getOrganization (server : Int → ApiResult RespGetOrganization)
    (cache : OrgCache) (id : Int) : OrgOutcome × OrgCache × Nat :=
  if cache id ≠ orgZero then
    (.ok ⟨"success", "", some (cache id)⟩, cache, 0)
  else
    match server id with
    | .transportErr => (.err, cache, 1)
    | .decodeErr _ => (.err, cache, 1)
    | .ok resp =>
      match resp.data with
      | none => (.crash, cache, 1)
      | some org => (.ok resp, fun j => if j = id then org else cache j, 1)

/-- Two consecutive `getOrganization` calls for the same id, threading the
cache; returns both results and the total number of outbound requests. -/
def callTwiceOrg (server : Int → ApiResult RespGetOrganization)
    (cache : OrgCache) (id : Int) : OrgOutcome × OrgOutcome × Nat :=
  let r1 := getOrganization server cache id
  let r2 := getOrganization server r1.2.1 id
  (r1.1, r2.1, r1.2.2 + r2.2.2)

/-- One option of a single-select custom field (`id`, display `value`). -/
structure CFOption where
  id : Int
  value : String
deriving DecidableEq

/-- The `Data` payload of `respGetCustomField` (`id`, `name`, type code,
options). -/
structure CustomFieldData where
  id : Int
  name : String
  type : Int
  options : List CFOption
deriving DecidableEq

/-- `respGetCustomField`: the custom-field definition envelope (`data` is a
value, not a pointer). -/
structure RespGetCustomField where
  status : String
  message : String
  data : CustomFieldData
deriving DecidableEq

/-- The custom-field cache `map[int]*respGetCustomField`: missing keys yield
a nil pointer, hence `Option`. -/
abbrev CFCache : Type := Int → Option RespGetCustomField

/-- `getCustomField`: cache hit iff the cached pointer is non-nil; on a miss,
issue the request, cache only on successful decode, and return the (possibly
partially) decoded envelope with a nil error — only transport errors are
propagated (`none`). -/
def getCustomField (server : Int → ApiResult RespGetCustomField)
    (cache : CFCache) (id : Int) : Option RespGetCustomField × CFCache × Nat :=
  match cache id with
  | some resp => (some resp, cache, 0)
  | none =>
    match server id with
    | .transportErr => (none, cache, 1)
    | .decodeErr part => (some part, cache, 1)
    | .ok resp => (some resp, fun j => if j = id then some resp else cache j, 1)

/-- Two consecutive `getCustomField` calls for the same id, threading the
cache; returns both results and the total number of outbound requests. -/
def callTwiceCf (server : Int → ApiResult RespGetCustomField)
    (cache : CFCache) (id : Int) :
    Option RespGetCustomField × Option RespGetCustomField × Nat :=
  let r1 := getCustomField server cache id
  let r2 := getCustomField server r1.2.1 id
  (r1.1, r2.1, r1.2.2 + r2.2.2)

/-- One entry of a ticket's `customfields` array (`field_id`, raw `value`). -/
structure CustomFieldValue where
  fieldId : Int
  value : String
deriving DecidableEq

/-- `Ticket` (the fields `collectMetrics` reads). -/
structure Ticket where
  id : Int
  subject : String
  statusName : String
  priorityName : String
  userName : String
  organizationId : Int
  createdAt : Int
  updatedAt : Int
  deletedAt : Int
  resolvedTime : Int
  operatorUrl : String
  frontendUrl : String
  customFields : List CustomFieldValue
deriving DecidableEq

/-! ## Pagination (`fetchAllTickets`)

`listTickets` is abstracted as a page function `Nat → Nat → Option (List α ×
Nat)` giving the page's `data` and server-reported `count` (`none` on a
transport or decode error).  The Go loop is unbounded, so the model takes
explicit fuel; `none` therefore also covers fuel exhaustion, and the
pagination theorem shows that `N + 1` fuel always suffices for the canonical
server. -/

/-- The loop body of `fetchAllTickets`: request the page at `start` with the
fixed limit 2000, append its data, stop once the reported count is at most
the number of accumulated tickets, else advance `start` by the limit.
Returns the accumulated tickets and the number of page requests issued. -/
def fetchAllTicketsLoop (listT : Nat → Nat → Option (List α × Nat)) :
    Nat → Nat → List α → Nat → Option (List α × Nat)
  | 0, _, _, _ => none
  | fuel + 1, start, acc, reqs =>
    match listT start 2000 with
    | none => none
    | some (data, count) =>
      let acc2 := acc ++ data
      if count ≤ acc2.length then some (acc2, reqs + 1)
      else fetchAllTicketsLoop listT fuel (start + 2000) acc2 (reqs + 1)

/-- `fetchAllTickets`: start at offset 0 with an empty accumulator. -/
def fetchAllTickets (listT : Nat → Nat → Option (List α × Nat)) (fuel : Nat) :
    Option (List α × Nat) :=
  fetchAllTicketsLoop listT fuel 0 [] 0

/-- The canonical paginated server of the pagination claim: a collection of
`N` items (numbered `0..N-1`); every page request returns
`min limit (N - start)` items starting at `start` and always reports the
total count `N`. -/
def pageServer (N : Nat) : Nat → Nat → Option (List Nat × Nat) :=
  fun start limit => some (List.range' start (min limit (N - start)), N)

/-! ## Labels and gauge vectors

`prometheus.Labels` is a map from label name to value, modelled as an
association list with replace-or-append insertion; a gauge vector is a map
from a label combination to the gauge value.  Since Go maps are unordered,
label combinations are canonicalized (sorted by label name) before being
used as series keys, mirroring how Prometheus identifies a series by its
label set regardless of construction order. -/

/-- A label-name → label-value mapping. -/
abbrev Labels : Type := List (String × String)

/-- Map insertion: replace the value of an existing key or append. -/
def setL : Labels → String → String → Labels
  | [], k, v => [(k, v)]
  | (k', v') :: rest, k, v =>
    if k' = k then (k, v) :: rest else (k', v') :: setL rest k v

/-- Map lookup. -/
def lookupL : Labels → String → Option String
  | [], _ => none
  | (k', v') :: rest, k => if k' = k then some v' else lookupL rest k

/-- Character-list lexicographic comparison (by code point), used to give
label combinations a canonical order. -/
def charListLe : List Char → List Char → Bool
  | [], _ => true
  | _ :: _, [] => false
  | a :: as, b :: bs =>
    if a.toNat < b.toNat then true
    else if b.toNat < a.toNat then false
    else charListLe as bs

/-- Insert a label pair into a name-sorted association list. -/
def orderedInsertL (p : String × String) : Labels → Labels
  | [] => [p]
  | q :: rest =>
    if charListLe p.1.toList q.1.toList then p :: q :: rest
    else q :: orderedInsertL p rest

/-- Canonical form of a label combination: insertion-sorted by label name. -/
def canon : Labels → Labels
  | [] => []
  | p :: rest => orderedInsertL p (canon rest)

/-- One gauge vector: series keyed by canonical label combination. -/
abbrev GaugeMap : Type := List (Labels × Int)

/-- `GaugeVec.With(labels).Set(v)`: create or overwrite the series. -/
def setG : GaugeMap → Labels → Int → GaugeMap
  | [], c, v => [(c, v)]
  | (c', v') :: rest, c, v =>
    if c' = c then (c, v) :: rest else (c', v') :: setG rest c v

/-- Value of the series with label combination `c`, if present. -/
def lookupG : GaugeMap → Labels → Option Int
  | [], _ => none
  | (c', v') :: rest, c => if c' = c then some v' else lookupG rest c

/-- Whether a series with label combination `c` is exposed. -/
def appearsG : GaugeMap → Labels → Bool
  | [], _ => false
  | (c', _) :: rest, c => c' = c || appearsG rest c

/-- The four gauge vectors of the exporter. -/
structure GaugeState where
  created : GaugeMap
  updated : GaugeMap
  deleted : GaugeMap
  resolved : GaugeMap
deriving DecidableEq

/-- `CommonLabels` (the fixed base label names). -/
def CommonLabels : List String :=
  ["client", "status", "priority", "user", "subject", "ticket_url", "frontend_url"]

/-- Custom-field value resolution in `collectMetrics`: for a type-7
(single-select) definition, scan the options in order and replace the raw
value by the slugged display text of the first option whose id equals the
raw value parsed with `strconv.Atoi` (0 on parse error); no match, or any
other type code, leaves the raw value unchanged. -/
def resolveLoop : List CFOption → String → String
  | [], v => v
  | o :: rest, v => if o.id = goAtoi v then slugMake o.value else resolveLoop rest v

/-- The published value of one custom field (see `resolveLoop`). -/
def resolveFieldValue (d : CustomFieldData) (raw : String) : String :=
  if d.type = 7 then resolveLoop d.options raw else raw

/-- The label name derived from a custom-field definition name:
`slug.Make` then `-` replaced by `_`. -/
def cfLabelName (n : String) : String :=
  dashToUnderscore (slugMake n)

/-- The custom-field loop of `collectMetrics`: resolve each field definition
through the cache; a lookup error skips only that field (`continue`),
otherwise assign the resolved value under the normalized name. -/
def applyCustomFields (srvC : Int → ApiResult RespGetCustomField) :
    CFCache → Labels → List CustomFieldValue → Labels × CFCache
  | cache, labels, [] => (labels, cache)
  | cache, labels, cf :: rest =>
    match getCustomField srvC cache cf.fieldId with
    | (none, c2, _) => applyCustomFields srvC c2 labels rest
    | (some resp, c2, _) =>
      applyCustomFields srvC c2
        (setL labels (cfLabelName resp.data.name) (resolveFieldValue resp.data cf.value)) rest

/-- The fill loop of `collectMetrics`: every registered label name absent
from the computed mapping is set to the empty string. -/
def fillGlobals (labels : Labels) : List String → Labels
  | [] => labels
  | g :: rest =>
    fillGlobals (if (lookupL labels g).isSome then labels else setL labels g "") rest

/-- Caches threaded through one cycle. -/
structure Caches where
  org : OrgCache
  cf : CFCache

/-- Outcome of building one ticket's label mapping: nil-pointer crash inside
`getOrganization`, ticket skipped (`continue` after an organization lookup
error), or the finished mapping. -/
inductive BuildResult where
  | crashed : BuildResult
  | skipped : Caches → BuildResult
  | built : Labels → Caches → BuildResult

/-- Label construction for one ticket in `collectMetrics`: the base labels,
then `client` from the organization lookup when `organisation_id` is
non-zero (an error skips the whole ticket, nil data yields an empty name),
then the custom-field loop, then the global-label fill. -/
def buildLabels (srvO : Int → ApiResult RespGetOrganization)
    (srvC : Int → ApiResult RespGetCustomField) (gl : List String)
    (caches : Caches) (t : Ticket) : BuildResult :=
  let base : Labels :=
    [("status", strToLower t.statusName), ("priority", strToLower t.priorityName),
     ("user", strToLower t.userName), ("subject", t.subject),
     ("ticket_url", t.operatorUrl), ("frontend_url", t.frontendUrl)]
  if t.organizationId ≠ 0 then
    match getOrganization srvO caches.org t.organizationId with
    | (.crash, _, _) => .crashed
    | (.err, corg, _) => .skipped ⟨corg, caches.cf⟩
    | (.ok resp, corg, _) =>
      let orgName := match resp.data with
        | some o => o.name
        | none => ""
      let orgName := strToLower (stripSpaces orgName)
      let step := applyCustomFields srvC caches.cf (setL base "client" orgName) t.customFields
      .built (fillGlobals step.1 gl) ⟨corg, step.2⟩
  else
    let step := applyCustomFields srvC caches.cf base t.customFields
    .built (fillGlobals step.1 gl) ⟨caches.org, step.2⟩

/-- The four gauge observations of one ticket (source order): `deleted` if
`DeletedAt != 0`, `created` if `CreatedAt != 0`, `updated` always (falling
back to `CreatedAt` when `UpdatedAt` is 0), `resolved` if
`ResolvedTime != 0`. -/
def applyObs (st : GaugeState) (c : Labels) (t : Ticket) : GaugeState where
  deleted := if t.deletedAt ≠ 0 then setG st.deleted c t.deletedAt else st.deleted
  created := if t.createdAt ≠ 0 then setG st.created c t.createdAt else st.created
  updated := if t.updatedAt ≠ 0 then setG st.updated c t.updatedAt
             else setG st.updated c t.createdAt
  resolved := if t.resolvedTime ≠ 0 then setG st.resolved c t.resolvedTime else st.resolved

/-- Processing of one ticket inside the cycle: age filter, label
construction, then the gauge observations; returns the threaded caches, the
new gauge state and the list of (canonical) label combinations written
(`none` = nil-pointer crash). -/
def processTicket (srvO : Int → ApiResult RespGetOrganization)
    (srvC : Int → ApiResult RespGetCustomField) (gl : List String) (now : Int)
    (caches : Caches) (t : Ticket) (st : GaugeState) :
    Option (Caches × GaugeState × List Labels) :=
  if skipTicket t.createdAt now then some (caches, st, [])
  else
    match buildLabels srvO srvC gl caches t with
    | .crashed => none
    | .skipped c2 => some (c2, st, [])
    | .built l c2 => some (c2, applyObs st (canon l) t, [canon l])

/-- The ticket loop of one cycle, accumulating the audit list of label
combinations written. -/
def processTickets (srvO : Int → ApiResult RespGetOrganization)
    (srvC : Int → ApiResult RespGetCustomField) (gl : List String) (now : Int) :
    List Ticket → Caches → GaugeState → List Labels →
    Option (Caches × GaugeState × List Labels)
  | [], caches, st, aud => some (caches, st, aud)
  | t :: rest, caches, st, aud =>
    match processTicket srvO srvC gl now caches t st with
    | none => none
    | some (c2, st2, combos) => processTickets srvO srvC gl now rest c2 st2 (aud ++ combos)

/-- One iteration of the `collectMetrics` loop, with the fetch result
injected: on a fetch error (`none`) the iteration logs and `continue`s — no
gauge vector is touched and the final `time.Sleep` is skipped (second
component `false`); on success the created/updated/deleted vectors are
`Reset` (the resolved vector is not) and every ticket is processed.  The
`Option` result is `none` when ticket processing crashes the process. -/
def cycleStep (srvO : Int → ApiResult RespGetOrganization)
    (srvC : Int → ApiResult RespGetCustomField) (gl : List String) (now : Int)
    (fetched : Option (List Ticket)) (caches : Caches) (st : GaugeState) :
    Option (Caches × GaugeState × List Labels) × Bool :=
  match fetched with
  | none => (some (caches, st, []), false)
  | some tickets =>
    let st1 : GaugeState := { st with created := [], updated := [], deleted := [] }
    match processTickets srvO srvC gl now tickets caches st1 [] with
    | none => (none, false)
    | some (c2, st2, aud) => (some (c2, st2, aud), true)

/-! ## Concrete scenario values

Closed instances used by the witness and counterexample theorems: trivial
servers, empty caches/state, and small concrete tickets. -/

/-- The empty gauge registry. -/
def st0 : GaugeState := ⟨[], [], [], []⟩

/-- Empty caches (every organization slot holds the zero value, every
custom-field slot a nil pointer). -/
def caches0 : Caches := ⟨fun _ => orgZero, fun _ => none⟩

/-- An organization endpoint that always fails at transport level. -/
def srvOrgDown : Int → ApiResult RespGetOrganization := fun _ => .transportErr

/-- A custom-field endpoint that always fails at transport level. -/
def srvCfDown : Int → ApiResult RespGetCustomField := fun _ => .transportErr

/-- A fixed current time: 2020-02-20T00:00:00Z. -/
def now0 : Int := 1582156800

/-- Ticket A of the cycle-replacement scenario: fresh, with a non-zero
resolved time, no organization and no custom fields. -/
def ticketA : Ticket := ⟨1, "a", "", "", "", 0, 1582156800, 0, 0, 1582156800, "", "", []⟩

/-- Gauge state extracted from a cycle result (default on crash). -/
def outState (r : Option (Caches × GaugeState × List Labels) × Bool)
    (d : GaugeState) : GaugeState :=
  match r.1 with
  | some p => p.2.1
  | none => d

/-- Caches extracted from a cycle result (default on crash). -/
def outCaches (r : Option (Caches × GaugeState × List Labels) × Bool)
    (d : Caches) : Caches :=
  match r.1 with
  | some p => p.1
  | none => d

/-- Cycle 1: the fetch returns ticket A. -/
def run1C1 : Option (Caches × GaugeState × List Labels) × Bool :=
  cycleStep srvOrgDown srvCfDown CommonLabels now0 (some [ticketA]) caches0 st0

/-- Gauge state after cycle 1. -/
def st1C1 : GaugeState := outState run1C1 st0

/-- Caches after cycle 1. -/
def caches1C1 : Caches := outCaches run1C1 caches0

/-- Cycle 2: the fetch returns a ticket set without ticket A. -/
def run2C1 : Option (Caches × GaugeState × List Labels) × Bool :=
  cycleStep srvOrgDown srvCfDown CommonLabels now0 (some []) caches1C1 st1C1

/-- Gauge state after cycle 2. -/
def st2C1 : GaugeState := outState run2C1 st1C1

/-- Ticket A's canonical label combination. -/
def comboA : Labels :=
  [("client", ""), ("frontend_url", ""), ("priority", ""), ("status", ""),
   ("subject", "a"), ("ticket_url", ""), ("user", "")]

/-- An organization endpoint returning a fixed non-zero organization. -/
def srvOrgAcme : Int → ApiResult RespGetOrganization :=
  fun _ => .ok ⟨"success", "", some ⟨9, "Acme"⟩⟩

/-- An organization endpoint whose payload decodes to the zero
`Organization{}` (an empty JSON object under `data`). -/
def srvOrgZero : Int → ApiResult RespGetOrganization :=
  fun _ => .ok ⟨"success", "", some orgZero⟩

/-- A fixed single-select custom-field definition envelope. -/
def respCF5 : RespGetCustomField :=
  ⟨"success", "", ⟨3, "Color", 7, [⟨1, "Red"⟩, ⟨2, "Blue"⟩]⟩⟩

/-- A custom-field endpoint returning `respCF5`. -/
def srvCfColor : Int → ApiResult RespGetCustomField := fun _ => .ok respCF5

/-- An organization endpoint whose response body fails to decode. -/
def srvOrgDecodeErr : Int → ApiResult RespGetOrganization :=
  fun _ => .decodeErr ⟨"", "", none⟩

/-- A custom-field endpoint whose response body fails to decode, leaving a
partially-filled (zero-valued) envelope. -/
def srvCfDecodeErr : Int → ApiResult RespGetCustomField :=
  fun _ => .decodeErr ⟨"", "", ⟨0, "", 0, []⟩⟩

/-- An organization endpoint returning an envelope with non-canonical
status/message text. -/
def srvOrgPlain : Int → ApiResult RespGetOrganization :=
  fun _ => .ok ⟨"s", "m", some ⟨1, "a"⟩⟩

/-- A concrete ticket with all four timestamps non-zero, no organization and
no custom fields. -/
def ticketB : Ticket :=
  ⟨2, "b", "Open", "Low", "Jo", 0, 1582156800, 1582156801, 1582156802, 1582156803,
   "op", "fr", []⟩

/-- Ticket B's label mapping as built by `buildLabels`. -/
def labelsB : Labels :=
  [("status", "open"), ("priority", "low"), ("user", "jo"), ("subject", "b"),
   ("ticket_url", "op"), ("frontend_url", "fr"), ("client", "")]

/-- A ticket whose `created_at` is 0 but whose other timestamps are not. -/
def ticketC : Ticket := ⟨3, "c", "", "", "", 0, 0, 9, 7, 11, "", "", []⟩

/-- A fresh ticket with a non-zero `updated_at` that references organization
5 — its label construction fails when the organization endpoint errors. -/
def ticketD : Ticket :=
  ⟨4, "d", "", "", "", 5, 1582156800, 1582156801, 0, 0, "", "", []⟩

/-! ## Calendar lemmas -/

theorem daysInYear_bounds (y : Int) : 365 ≤ daysInYear y ∧ daysInYear y ≤ 366 := by
  unfold daysInYear
  split <;> omega

theorem daysToYear_succ (y : Int) : daysToYear (y + 1) = daysToYear y + daysInYear y := by
  rcases le_or_lt 1970 y with h | h
  · have h1 : daysToYear (y + 1) = daysFrom1970 ((y + 1 - 1970).toNat) := by
      unfold daysToYear
      rw [if_pos (by omega)]
    have h2 : daysToYear y = daysFrom1970 ((y - 1970).toNat) := by
      unfold daysToYear
      rw [if_pos h]
    have hk : (y + 1 - 1970).toNat = (y - 1970).toNat + 1 := by omega
    have harg : (1970 : Int) + ((y - 1970).toNat : Int) = y := by omega
    rw [h1, h2, hk, daysFrom1970, harg]
  · rcases eq_or_lt_of_le (show y ≤ 1969 by omega) with h1 | h1
    · subst h1
      decide
    · have h2 : daysToYear (y + 1) = daysBefore1970 ((1970 - (y + 1)).toNat) := by
        unfold daysToYear
        rw [if_neg (by omega)]
      have h3 : daysToYear y = daysBefore1970 ((1970 - y).toNat) := by
        unfold daysToYear
        rw [if_neg (by omega)]
      have hk : (1970 - y).toNat = (1970 - (y + 1)).toNat + 1 := by omega
      rw [h2, h3, hk, daysBefore1970]
      have harg : (1970 : Int) - ((((1970 - (y + 1)).toNat : Int)) + 1) = y := by omega
      rw [harg]
      omega

theorem yearFromDaysF_spec : ∀ (fuel : Nat) (y n Y doy : Int),
    yearFromDaysF fuel y n = some (Y, doy) →
    daysToYear Y + doy = daysToYear y + n ∧ 0 ≤ doy ∧ doy < daysInYear Y := by
  intro fuel
  induction fuel with
  | zero =>
    intro y n Y doy h
    simp [yearFromDaysF] at h
  | succ fuel ih =>
    intro y n Y doy h
    rw [yearFromDaysF] at h
    by_cases h1 : n < 0
    · rw [if_pos h1] at h
      obtain ⟨hsum, hd⟩ := ih _ _ _ _ h
      have hs := daysToYear_succ (y - 1)
      have hy : y - 1 + 1 = y := by ring
      rw [hy] at hs
      exact ⟨by omega, hd⟩
    · rw [if_neg h1] at h
      by_cases h2 : daysInYear y ≤ n
      · rw [if_pos h2] at h
        obtain ⟨hsum, hd⟩ := ih _ _ _ _ h
        have hs := daysToYear_succ y
        exact ⟨by omega, hd⟩
      · rw [if_neg h2] at h
        simp only [Option.some.injEq, Prod.mk.injEq] at h
        obtain ⟨hY, hdoy⟩ := h
        subst hY
        subst hdoy
        exact ⟨rfl, by omega, by omega⟩

theorem yearFromDaysF_isSome : ∀ (fuel : Nat) (y n : Int),
    (if n < 0 then 366 - n else n).toNat < fuel → (yearFromDaysF fuel y n).isSome := by
  intro fuel
  induction fuel with
  | zero =>
    intro y n h
    omega
  | succ fuel ih =>
    intro y n h
    rw [yearFromDaysF]
    by_cases h1 : n < 0
    · rw [if_pos h1]
      rw [if_pos h1] at h
      have hb := daysInYear_bounds (y - 1)
      apply ih
      split <;> omega
    · rw [if_neg h1]
      by_cases h2 : daysInYear y ≤ n
      · rw [if_pos h2]
        rw [if_neg h1] at h
        have hb := daysInYear_bounds y
        apply ih
        split <;> omega
      · rw [if_neg h2]
        simp

theorem ite_month_bound {c : Prop} [Decidable c] {a b : Nat}
    (ha : 1 ≤ a ∧ a ≤ 12) (hb : 1 ≤ b ∧ b ≤ 12) :
    1 ≤ (if c then a else b) ∧ (if c then a else b) ≤ 12 := by
  split
  · exact ha
  · exact hb

theorem monthFromDoy_range (l : Bool) (doy : Int) :
    1 ≤ monthFromDoy l doy ∧ monthFromDoy l doy ≤ 12 := by
  unfold monthFromDoy
  exact ite_month_bound (by omega)
    (ite_month_bound (by omega)
      (ite_month_bound (by omega)
        (ite_month_bound (by omega)
          (ite_month_bound (by omega)
            (ite_month_bound (by omega)
              (ite_month_bound (by omega)
                (ite_month_bound (by omega)
                  (ite_month_bound (by omega)
                    (ite_month_bound (by omega)
                      (ite_month_bound (by omega) (by omega)))))))))))

theorem daysBeforeMonth_cases (l1 l2 : Bool) (m : Nat) (hm1 : 1 ≤ m) (hm2 : m ≤ 12) :
    (m ≤ 2 → daysBeforeMonth l2 m = daysBeforeMonth l1 m) ∧
    (3 ≤ m → daysBeforeMonth l2 m - daysBeforeMonth l1 m =
      (if l2 then (1 : Int) else 0) - (if l1 then (1 : Int) else 0)) := by
  interval_cases m <;> cases l1 <;> cases l2 <;> exact ⟨by decide, by decide⟩

theorem addDate1Year_gap (t : Int) :
    365 * 86400 ≤ addDate1Year t - t ∧ addDate1Year t - t ≤ 366 * 86400 := by
  have hdecomp : 86400 * (t.ediv 86400) + t.emod 86400 = t := Int.ediv_add_emod t 86400
  have hsome := yearFromDaysF_isSome (yfdFuel (t.ediv 86400)) 1970 (t.ediv 86400)
    (by unfold yfdFuel; omega)
  obtain ⟨⟨Y, doy⟩, hY⟩ := Option.isSome_iff_exists.mp hsome
  obtain ⟨hsum, hd0, hdlt⟩ := yearFromDaysF_spec _ _ _ _ _ hY
  have h1970 : daysToYear 1970 = 0 := by decide
  rw [h1970] at hsum
  unfold addDate1Year
  rw [hY]
  simp only [addDate1YearAux]
  have hsucc := daysToYear_succ Y
  have hm := monthFromDoy_range (isLeap Y) doy
  have hc := daysBeforeMonth_cases (isLeap Y) (isLeap (Y + 1))
    (monthFromDoy (isLeap Y) doy) hm.1 hm.2
  have hdy : daysInYear Y = if isLeap Y then 366 else 365 := rfl
  by_cases hm2 : monthFromDoy (isLeap Y) doy ≤ 2
  · have hba := hc.1 hm2
    cases hil : isLeap Y <;> cases hil2 : isLeap (Y + 1) <;>
      simp only [hil, hil2, if_true, if_false, Bool.false_eq_true, Bool.true_eq_false,
        ite_true, ite_false] at hdy hba ⊢ <;> omega
  · have hba := hc.2 (by omega)
    cases hil : isLeap Y <;> cases hil2 : isLeap (Y + 1) <;>
      simp only [hil, hil2, if_true, if_false, Bool.false_eq_true, Bool.true_eq_false,
        ite_true, ite_false] at hdy hba ⊢ <;> omega

/-! ## Gauge-map lemmas -/

theorem appearsG_setG (m : GaugeMap) (c : Labels) (v : Int) (x : Labels) :
    appearsG (setG m c v) x = true ↔ c = x ∨ appearsG m x = true := by
  induction m with
  | nil => simp [setG, appearsG]
  | cons p rest ih =>
    obtain ⟨c', v'⟩ := p
    by_cases hcc : c' = c
    · subst hcc
      simp [setG, appearsG]
    · simp only [setG, if_neg hcc, appearsG, Bool.or_eq_true, decide_eq_true_eq, ih]
      tauto

theorem lookupG_setG_self (m : GaugeMap) (c : Labels) (v : Int) :
    lookupG (setG m c v) c = some v := by
  induction m with
  | nil => simp [setG, lookupG]
  | cons p rest ih =>
    obtain ⟨c', v'⟩ := p
    by_cases hcc : c' = c
    · subst hcc
      simp [setG, lookupG]
    · simp [setG, lookupG, if_neg hcc, ih]

theorem appears_setG_imp {m : GaugeMap} {c x : Labels} {v : Int}
    (hx : appearsG (setG m c v) x = true) : c = x ∨ appearsG m x = true :=
  (appearsG_setG m c v x).mp hx

theorem applyObs_appears (st : GaugeState) (c : Labels) (t : Ticket) (x : Labels) :
    (appearsG (applyObs st c t).created x = true → c = x ∨ appearsG st.created x = true) ∧
    (appearsG (applyObs st c t).updated x = true → c = x ∨ appearsG st.updated x = true) ∧
    (appearsG (applyObs st c t).deleted x = true → c = x ∨ appearsG st.deleted x = true) := by
  refine ⟨?_, ?_, ?_⟩ <;> simp only [applyObs] <;> split <;>
    first
      | exact fun hx => appears_setG_imp hx
      | exact fun hx => Or.inr hx

theorem processTicket_appears (srvO : Int → ApiResult RespGetOrganization)
    (srvC : Int → ApiResult RespGetCustomField) (gl : List String) (now : Int)
    (caches : Caches) (t : Ticket) (st : GaugeState) (c2 : Caches) (st2 : GaugeState)
    (combos : List Labels)
    (h : processTicket srvO srvC gl now caches t st = some (c2, st2, combos)) (x : Labels) :
    (appearsG st2.created x = true → appearsG st.created x = true ∨ x ∈ combos) ∧
    (appearsG st2.updated x = true → appearsG st.updated x = true ∨ x ∈ combos) ∧
    (appearsG st2.deleted x = true → appearsG st.deleted x = true ∨ x ∈ combos) := by
  unfold processTicket at h
  by_cases hs : skipTicket t.createdAt now = true
  · simp only [hs, if_true, Option.some.injEq, Prod.mk.injEq] at h
    obtain ⟨-, h2, -⟩ := h
    subst h2
    tauto
  · simp only [hs, if_false, Bool.false_eq_true] at h
    cases hb : buildLabels srvO srvC gl caches t <;> rw [hb] at h <;>
      simp only [Option.some.injEq, Prod.mk.injEq, reduceCtorEq] at h
    · obtain ⟨-, h2, -⟩ := h
      subst h2
      tauto
    · rename_i l cc
      obtain ⟨-, h2, h3⟩ := h
      subst h2
      subst h3
      have ha := applyObs_appears st (canon l) t x
      refine ⟨fun hx => ?_, fun hx => ?_, fun hx => ?_⟩
      · rcases ha.1 hx with hcx | hcx
        · exact Or.inr (by simp [hcx])
        · exact Or.inl hcx
      · rcases ha.2.1 hx with hcx | hcx
        · exact Or.inr (by simp [hcx])
        · exact Or.inl hcx
      · rcases ha.2.2 hx with hcx | hcx
        · exact Or.inr (by simp [hcx])
        · exact Or.inl hcx

theorem processTickets_aud (srvO : Int → ApiResult RespGetOrganization)
    (srvC : Int → ApiResult RespGetCustomField) (gl : List String) (now : Int) :
    ∀ (ts : List Ticket) (caches : Caches) (st : GaugeState) (aud : List Labels)
      (c2 : Caches) (st2 : GaugeState) (aud2 : List Labels),
    processTickets srvO srvC gl now ts caches st aud = some (c2, st2, aud2) →
    aud ⊆ aud2 := by
  intro ts
  induction ts with
  | nil =>
    intro caches st aud c2 st2 aud2 h
    simp only [processTickets, Option.some.injEq, Prod.mk.injEq] at h
    obtain ⟨-, -, h3⟩ := h
    subst h3
    exact List.Subset.refl _
  | cons t rest ih =>
    intro caches st aud c2 st2 aud2 h
    rw [processTickets] at h
    cases hp : processTicket srvO srvC gl now caches t st <;> rw [hp] at h
    · simp at h
    · case some p =>
      obtain ⟨c', st', combos⟩ := p
      exact (List.subset_append_left aud combos).trans (ih _ _ _ _ _ _ h)

theorem processTickets_appears (srvO : Int → ApiResult RespGetOrganization)
    (srvC : Int → ApiResult RespGetCustomField) (gl : List String) (now : Int) :
    ∀ (ts : List Ticket) (caches : Caches) (st : GaugeState) (aud : List Labels)
      (c2 : Caches) (st2 : GaugeState) (aud2 : List Labels),
    processTickets srvO srvC gl now ts caches st aud = some (c2, st2, aud2) →
    ∀ x : Labels,
    (appearsG st2.created x = true → appearsG st.created x = true ∨ x ∈ aud2) ∧
    (appearsG st2.updated x = true → appearsG st.updated x = true ∨ x ∈ aud2) ∧
    (appearsG st2.deleted x = true → appearsG st.deleted x = true ∨ x ∈ aud2) := by
  intro ts
  induction ts with
  | nil =>
    intro caches st aud c2 st2 aud2 h x
    simp only [processTickets, Option.some.injEq, Prod.mk.injEq] at h
    obtain ⟨-, h2, -⟩ := h
    subst h2
    tauto
  | cons t rest ih =>
    intro caches st aud c2 st2 aud2 h x
    rw [processTickets] at h
    cases hp : processTicket srvO srvC gl now caches t st <;> rw [hp] at h
    · simp at h
    · case some p =>
      obtain ⟨c', st', combos⟩ := p
      have hsub := processTickets_aud srvO srvC gl now rest c' st' (aud ++ combos) _ _ _ h
      have h1 := processTicket_appears srvO srvC gl now caches t st c' st' combos hp x
      have h2 := ih _ _ _ _ _ _ h x
      refine ⟨fun hx => ?_, fun hx => ?_, fun hx => ?_⟩
      · rcases h2.1 hx with hy | hy
        · rcases h1.1 hy with hz | hz
          · exact Or.inl hz
          · exact Or.inr (hsub (List.mem_append_right aud hz))
        · exact Or.inr hy
      · rcases h2.2.1 hx with hy | hy
        · rcases h1.2.1 hy with hz | hz
          · exact Or.inl hz
          · exact Or.inr (hsub (List.mem_append_right aud hz))
        · exact Or.inr hy
      · rcases h2.2.2 hx with hy | hy
        · rcases h1.2.2 hy with hz | hz
          · exact Or.inl hz
          · exact Or.inr (hsub (List.mem_append_right aud hz))
        · exact Or.inr hy

/-! ## Pagination lemmas -/

theorem fetchLoop_spec (N : Nat) : ∀ (fuel j : Nat), 2000 * j < N →
    N ≤ 2000 * j + 2000 * fuel →
    fetchAllTicketsLoop (pageServer N) fuel (2000 * j) (List.range' 0 (2000 * j)) j =
      some (List.range' 0 N, j + (N - 2000 * j + 1999) / 2000) := by
  intro fuel
  induction fuel with
  | zero =>
    intro j h1 h2
    omega
  | succ fuel ih =>
    intro j h1 h2
    rw [fetchAllTicketsLoop]
    simp only [pageServer]
    have hacc := List.range'_append_1 0 (2000 * j) (min 2000 (N - 2000 * j))
    rw [zero_add] at hacc
    rw [hacc]
    simp only [List.length_range']
    by_cases hbr : N ≤ 2000 * j + 2000
    · rw [if_pos (by omega)]
      have hmin : min 2000 (N - 2000 * j) + 2000 * j = N := by omega
      rw [hmin]
      have : (N - 2000 * j + 1999) / 2000 = 1 := by omega
      rw [this]
    · rw [if_neg (by omega)]
      have hmin : min 2000 (N - 2000 * j) + 2000 * j = 2000 * (j + 1) := by omega
      rw [hmin]
      have hstart : 2000 * j + 2000 = 2000 * (j + 1) := by ring
      rw [hstart]
      rw [ih (j + 1) (by omega) (by omega)]
      have : j + (N - 2000 * j + 1999) / 2000 = j + 1 + (N - 2000 * (j + 1) + 1999) / 2000 := by
        omega
      rw [this]

/-! ## Claim theorems (C2, C3, C4) -/

/-- C2: for a collection of `N` tickets served with page size 2000 where each
page request returns `min 2000 remaining` items and reports total count `N`,
`fetchAllTickets` terminates (with `N + 1` fuel), issues exactly
`ceil (N / 2000)` page requests (one request when `N = 0`), and returns
exactly the `N` distinct items with no duplicates. -/
theorem C2_pagination (N : Nat) :
    fetchAllTickets (pageServer N) (N + 1) =
      some (List.range N, if N = 0 then 1 else (N + 1999) / 2000) ∧
    (List.range N).length = N ∧ (List.range N).Nodup := by
  refine ⟨?_, List.length_range N, List.nodup_range N⟩
  by_cases h0 : N = 0
  · subst h0
    rfl
  · unfold fetchAllTickets
    have h := fetchLoop_spec N (N + 1) 0 (by omega) (by omega)
    simp only [Nat.mul_zero] at h
    rw [show List.range' 0 0 = ([] : List Nat) from rfl] at h
    rw [h, if_neg h0, List.range_eq_range']
    have : 0 + (N - 0 + 1999) / 2000 = (N + 1999) / 2000 := by omega
    rw [this]

/-- C3: an iteration of the `collectMetrics` loop whose fetch fails mutates
no gauge vector (the registry and caches are exactly what the previous cycle
left), performs no sleep, and returns normally to the next iteration — the
error does not escape. -/
theorem C3_fetch_error_atomicity (srvO : Int → ApiResult RespGetOrganization)
    (srvC : Int → ApiResult RespGetCustomField) (gl : List String) (now : Int)
    (caches : Caches) (st : GaugeState) :
    cycleStep srvO srvC gl now none caches st = (some (caches, st, []), false) := rfl

/-- C4 (amended): a ticket is skipped exactly when its creation time plus one
calendar year — 365 days, or 366 days when the spanned year contains a leap
day — is strictly before the current time; hence a ticket created at most
365 days ago is always included, and one created more than 366 days ago is
always excluded.  (The claim's "created exactly 366 days ago is excluded for
every current time" fails in the leap case, see the counterexample.) -/
theorem C4_age_filter_amended (created now : Int) :
    (skipTicket created now = true ↔ addDate1Year created < now) ∧
    (now ≤ created + 365 * 86400 → skipTicket created now = false) ∧
    (created + 366 * 86400 < now → skipTicket created now = true) := by
  have hg := addDate1Year_gap created
  unfold skipTicket
  refine ⟨by simp, fun h => ?_, fun h => ?_⟩
  · simp only [decide_eq_false_iff_not]
    omega
  · simp only [decide_eq_true_eq]
    omega

/-- C4 witness: a ticket created exactly 365 days ago is included; one
created 366 days plus a second ago (from epoch 0, a non-leap span) is
excluded. -/
theorem C4_age_filter_witness :
    skipTicket 0 31536000 = false ∧ skipTicket 0 31622401 = true :=
  ⟨(C4_age_filter_amended 0 31536000).2.1 (by norm_num),
   (C4_age_filter_amended 0 31622401).2.2 (by norm_num)⟩

/-- C4 counterexample: a ticket created at 2020-02-20T00:00:00Z is exactly
366 days old at 2021-02-20T00:00:00Z (the span contains 2020-02-29), yet the
age filter does **not** skip it — `AddDate(1,0,0)` adds a calendar year, not
365 days, so the claim's "366 days ago is always excluded" is false. -/
theorem C4_age_filter_counterexample :
    (1582156800 : Int) + 366 * 86400 - 1582156800 = 366 * 86400 ∧
    skipTicket 1582156800 (1582156800 + 366 * 86400) = false := by
  refine ⟨by norm_num, by decide⟩

/-! ## Custom-field resolution lemma -/

theorem resolveLoop_find (raw : String) : ∀ opts : List CFOption,
    resolveLoop opts raw =
      ((opts.find? (fun o => decide (o.id = goAtoi raw))).map
        (fun o => slugMake o.value)).getD raw := by
  intro opts
  induction opts with
  | nil => simp [resolveLoop, List.find?]
  | cons o rest ih =>
    by_cases ho : o.id = goAtoi raw
    · simp [resolveLoop, List.find?, ho]
    · simp [resolveLoop, List.find?, ho, ih]

/-! ## Claim theorems (C1, C5 — C10) -/

/-- C1 (amended): if a cycle's fetch succeeds and the cycle completes, every
label combination absent from the combinations written during that cycle is
absent from the created, updated and deleted gauge vectors afterwards — in
particular a ticket deleted upstream stops appearing there.  (The resolved
vector is **not** reset and is excluded; see the counterexample.) -/
theorem C1_cycle_replacement_amended (srvO : Int → ApiResult RespGetOrganization)
    (srvC : Int → ApiResult RespGetCustomField) (gl : List String) (now : Int)
    (ts : List Ticket) (caches : Caches) (st : GaugeState) (c2 : Caches)
    (st2 : GaugeState) (aud : List Labels) (x : Labels)
    (hrun : cycleStep srvO srvC gl now (some ts) caches st = (some (c2, st2, aud), true))
    (hx : x ∉ aud) :
    appearsG st2.created x = false ∧ appearsG st2.updated x = false ∧
    appearsG st2.deleted x = false := by
  simp only [cycleStep] at hrun
  cases hp : processTickets srvO srvC gl now ts caches
      { st with created := [], updated := [], deleted := [] } [] <;> rw [hp] at hrun
  · simp at hrun
  · rename_i p
    obtain ⟨c', st', aud'⟩ := p
    simp only [Prod.mk.injEq, Option.some.injEq, and_true] at hrun
    obtain ⟨h1, h2, h3⟩ := hrun
    subst h1
    subst h2
    subst h3
    have happ := processTickets_appears srvO srvC gl now ts caches
      { st with created := [], updated := [], deleted := [] } [] _ _ _ hp x
    refine ⟨?_, ?_, ?_⟩
    · cases hA : appearsG st'.created x
      · rfl
      · rcases happ.1 hA with h | h
        · simp [appearsG] at h
        · exact absurd h hx
    · cases hA : appearsG st'.updated x
      · rfl
      · rcases happ.2.1 hA with h | h
        · simp [appearsG] at h
        · exact absurd h hx
    · cases hA : appearsG st'.deleted x
      · rfl
      · rcases happ.2.2 hA with h | h
        · simp [appearsG] at h
        · exact absurd h hx

/-- C1 witness: a cycle whose fetch returns no tickets leaves ticket A's
label combination absent from the created, updated and deleted vectors. -/
theorem C1_cycle_replacement_witness :
    appearsG st0.created comboA = false ∧ appearsG st0.updated comboA = false ∧
    appearsG st0.deleted comboA = false :=
  C1_cycle_replacement_amended srvOrgDown srvCfDown CommonLabels now0 [] caches0 st0
    caches0 st0 [] comboA rfl (by simp)

/-- C1 counterexample: cycle 1 publishes ticket A's series (non-zero
resolved time); cycle 2's fetch returns a ticket set without A and completes,
yet A's label combination still appears in the resolved gauge vector — the
resolved vector is never `Reset`, refuting the claim for "any of the exposed
gauge vectors". -/
theorem C1_cycle_replacement_counterexample :
    skipTicket ticketA.createdAt now0 = false ∧
    appearsG st1C1.resolved comboA = true ∧
    run2C1.2 = true ∧
    appearsG st2C1.resolved comboA = true ∧
    appearsG st2C1.created comboA = false := by
  refine ⟨by decide, by decide, by decide, by decide, by decide⟩

/-- C5 (amended): the second of two same-id lookups is answered from the
cache with an identical result and only one outbound request is issued,
provided the first lookup actually caches a usable entry: for
`getOrganization`, the fetched envelope must be a success envelope carrying a
non-zero organization (a zero-valued one is never recognized as a cache hit
— see the counterexample); for `getCustomField`, the response must decode
successfully. -/
theorem C5_cache_idempotence_amended :
    (∀ (srv : Int → ApiResult RespGetOrganization) (cache : OrgCache) (id : Int)
      (org : Organization), cache id = orgZero → srv id = .ok ⟨"success", "", some org⟩ →
      org ≠ orgZero →
      callTwiceOrg srv cache id =
        (.ok ⟨"success", "", some org⟩, .ok ⟨"success", "", some org⟩, 1)) ∧
    (∀ (srv : Int → ApiResult RespGetCustomField) (cache : CFCache) (id : Int)
      (resp : RespGetCustomField), cache id = none → srv id = .ok resp →
      callTwiceCf srv cache id = (some resp, some resp, 1)) := by
  constructor
  · intro srv cache id org hc hs ho
    have h1 : getOrganization srv cache id =
        (.ok ⟨"success", "", some org⟩, fun j => if j = id then org else cache j, 1) := by
      unfold getOrganization
      rw [if_neg (by simp [hc]), hs]
    have h2 : getOrganization srv (fun j => if j = id then org else cache j) id =
        (.ok ⟨"success", "", some org⟩, fun j => if j = id then org else cache j, 0) := by
      unfold getOrganization
      rw [if_pos (by simp [ho])]
      simp
    simp [callTwiceOrg, h1, h2]
  · intro srv cache id resp hc hs
    have h1 : getCustomField srv cache id =
        (some resp, fun j => if j = id then some resp else cache j, 1) := by
      unfold getCustomField
      rw [hc, hs]
    have h2 : getCustomField srv (fun j => if j = id then some resp else cache j) id =
        (some resp, fun j => if j = id then some resp else cache j, 0) := by
      unfold getCustomField
      simp
    simp [callTwiceCf, h1, h2]

/-- C5 witness: two organization lookups for a non-zero organization, and two
custom-field lookups for a decodable definition, each issue exactly one
outbound request and return identical results. -/
theorem C5_cache_idempotence_witness :
    callTwiceOrg srvOrgAcme (fun _ => orgZero) 4 =
      (.ok ⟨"success", "", some ⟨9, "Acme"⟩⟩, .ok ⟨"success", "", some ⟨9, "Acme"⟩⟩, 1) ∧
    callTwiceCf srvCfColor (fun _ => none) 6 = (some respCF5, some respCF5, 1) :=
  ⟨C5_cache_idempotence_amended.1 srvOrgAcme (fun _ => orgZero) 4 ⟨9, "Acme"⟩ rfl rfl
      (by decide),
   C5_cache_idempotence_amended.2 srvCfColor (fun _ => none) 6 respCF5 rfl rfl⟩

/-- C5 counterexample: when the upstream organization decodes to the zero
`Organization{}` (an empty `data` object), both calls succeed but the
cache-hit test `ok != (Organization{})` never fires, so two same-id calls
issue two outbound requests — refuting "exactly one outbound HTTP request"
as stated. -/
theorem C5_cache_idempotence_counterexample :
    (callTwiceOrg srvOrgZero (fun _ => orgZero) 5).1 =
      OrgOutcome.ok ⟨"success", "", some orgZero⟩ ∧
    (callTwiceOrg srvOrgZero (fun _ => orgZero) 5).2.2 = 2 := by
  refine ⟨by decide, by decide⟩

/-- C6 (amended): on a cache miss whose request succeeds but whose body fails
to decode, `getCustomField` returns the partially decoded (possibly
zero-valued) envelope with no error and leaves the cache unwritten;
`getOrganization`, by contrast, propagates the decode error (no best-effort
result — see the counterexample).  Neither function writes its cache on a
transport or decode failure. -/
theorem C6_decode_best_effort_amended :
    (∀ (srv : Int → ApiResult RespGetOrganization) (cache : OrgCache) (id : Int)
      (part : RespGetOrganization), cache id = orgZero → srv id = .decodeErr part →
      getOrganization srv cache id = (.err, cache, 1)) ∧
    (∀ (srv : Int → ApiResult RespGetCustomField) (cache : CFCache) (id : Int)
      (part : RespGetCustomField), cache id = none → srv id = .decodeErr part →
      getCustomField srv cache id = (some part, cache, 1)) ∧
    (∀ (srv : Int → ApiResult RespGetOrganization) (cache : OrgCache) (id : Int),
      cache id = orgZero → srv id = .transportErr →
      getOrganization srv cache id = (.err, cache, 1)) ∧
    (∀ (srv : Int → ApiResult RespGetCustomField) (cache : CFCache) (id : Int),
      cache id = none → srv id = .transportErr →
      getCustomField srv cache id = (none, cache, 1)) := by
  refine ⟨fun srv cache id part hc hs => ?_, fun srv cache id part hc hs => ?_,
          fun srv cache id hc hs => ?_, fun srv cache id hc hs => ?_⟩
  · unfold getOrganization
    rw [if_neg (by simp [hc]), hs]
  · unfold getCustomField
    rw [hc, hs]
  · unfold getOrganization
    rw [if_neg (by simp [hc]), hs]
  · unfold getCustomField
    rw [hc, hs]

/-- C6 witness: a decode failure makes `getCustomField` return its
best-effort partial envelope without caching it, while `getOrganization`
returns an error without caching. -/
theorem C6_decode_best_effort_witness :
    getCustomField srvCfDecodeErr (fun _ => none) 7 =
      (some ⟨"", "", ⟨0, "", 0, []⟩⟩, (fun _ => none), 1) ∧
    getOrganization srvOrgDecodeErr (fun _ => orgZero) 7 =
      (.err, (fun _ => orgZero), 1) :=
  ⟨C6_decode_best_effort_amended.2.1 srvCfDecodeErr (fun _ => none) 7 ⟨"", "", ⟨0, "", 0, []⟩⟩
      rfl rfl,
   C6_decode_best_effort_amended.1 srvOrgDecodeErr (fun _ => orgZero) 7 ⟨"", "", none⟩
      rfl rfl⟩

/-- C6 counterexample: a cache-miss `getOrganization` lookup whose response
fails to decode returns an error outcome — not a best-effort result —
refuting the claim for `getOrganization`. -/
theorem C6_decode_best_effort_counterexample :
    (getOrganization srvOrgDecodeErr (fun _ => orgZero) 3).1 = OrgOutcome.err := by
  decide

/-- C7: for a type-7 (single-select) definition the published label value is
the slugged display text of the first option whose id equals the raw value
parsed as an integer, the raw value passing through unchanged when no option
matches; any other type code always passes the raw value through.  In
particular options `[{1,Red},{2,Blue}]` with raw `"2"` yield `"blue"`, raw
`"9"` stays `"9"`, and a non-type-7 field keeps raw `"2"`. -/
theorem C7_option_resolution :
    (∀ (d : CustomFieldData) (raw : String),
      resolveFieldValue d raw =
        if d.type = 7 then
          ((d.options.find? (fun o => decide (o.id = goAtoi raw))).map
            (fun o => slugMake o.value)).getD raw
        else raw) ∧
    resolveFieldValue ⟨3, "Color", 7, [⟨1, "Red"⟩, ⟨2, "Blue"⟩]⟩ "2" = "blue" ∧
    resolveFieldValue ⟨3, "Color", 7, [⟨1, "Red"⟩, ⟨2, "Blue"⟩]⟩ "9" = "9" ∧
    resolveFieldValue ⟨3, "Color", 5, [⟨1, "Red"⟩, ⟨2, "Blue"⟩]⟩ "2" = "2" := by
  refine ⟨fun d raw => ?_, by decide, by decide, by decide⟩
  unfold resolveFieldValue
  split
  · exact resolveLoop_find raw d.options
  · rfl

/-- C8 (amended): for a ticket that passes the age filter and whose label
mapping is built (the organization lookup succeeds or the ticket has no
organization), the cycle sets the deleted gauge to `deletedAt` exactly when
`deletedAt ≠ 0`, the created gauge to `createdAt` exactly when
`createdAt ≠ 0`, always sets the updated gauge (to `updatedAt`, falling back
to `createdAt` when it is 0), and sets the resolved gauge to `resolvedTime`
exactly when `resolvedTime ≠ 0` (an unset gauge keeps its previous series
value, if any); a ticket whose organization lookup errors is skipped
entirely (`continue`) and emits no observation at all, even though it passed
the age filter — see the counterexample. -/
theorem C8_observation_emission_amended (srvO : Int → ApiResult RespGetOrganization)
    (srvC : Int → ApiResult RespGetCustomField) (gl : List String) (now : Int)
    (caches : Caches) (t : Ticket) (st : GaugeState)
    (hskip : skipTicket t.createdAt now = false) :
    (∀ (l : Labels) (c2 : Caches), buildLabels srvO srvC gl caches t = .built l c2 →
      processTicket srvO srvC gl now caches t st =
        some (c2, applyObs st (canon l) t, [canon l]) ∧
      lookupG (applyObs st (canon l) t).deleted (canon l) =
        (if t.deletedAt ≠ 0 then some t.deletedAt else lookupG st.deleted (canon l)) ∧
      lookupG (applyObs st (canon l) t).created (canon l) =
        (if t.createdAt ≠ 0 then some t.createdAt else lookupG st.created (canon l)) ∧
      lookupG (applyObs st (canon l) t).updated (canon l) =
        some (if t.updatedAt ≠ 0 then t.updatedAt else t.createdAt) ∧
      lookupG (applyObs st (canon l) t).resolved (canon l) =
        (if t.resolvedTime ≠ 0 then some t.resolvedTime else lookupG st.resolved (canon l))) ∧
    (∀ c2 : Caches, buildLabels srvO srvC gl caches t = .skipped c2 →
      processTicket srvO srvC gl now caches t st = some (c2, st, [])) := by
  constructor
  · intro l c2 hbuild
    refine ⟨?_, ?_, ?_, ?_, ?_⟩
    · unfold processTicket
      simp only [hskip, Bool.false_eq_true, if_false, hbuild]
    · simp only [applyObs]
      by_cases hd : t.deletedAt ≠ 0
      · rw [if_pos hd, if_pos hd, lookupG_setG_self]
      · rw [if_neg hd, if_neg hd]
    · simp only [applyObs]
      by_cases hd : t.createdAt ≠ 0
      · rw [if_pos hd, if_pos hd, lookupG_setG_self]
      · rw [if_neg hd, if_neg hd]
    · simp only [applyObs]
      by_cases hd : t.updatedAt ≠ 0
      · rw [if_pos hd, if_pos hd, lookupG_setG_self]
      · rw [if_neg hd, if_neg hd, lookupG_setG_self]
    · simp only [applyObs]
      by_cases hd : t.resolvedTime ≠ 0
      · rw [if_pos hd, if_pos hd, lookupG_setG_self]
      · rw [if_neg hd, if_neg hd]
  · intro c2 hbuild
    unfold processTicket
    simp only [hskip, Bool.false_eq_true, if_false, hbuild]

/-- C8 witness: ticket B (all four timestamps non-zero, built labels) gets
its updated gauge set. -/
theorem C8_observation_emission_witness :
    lookupG (applyObs st0 (canon labelsB) ticketB).updated (canon labelsB) =
      some (if ticketB.updatedAt ≠ 0 then ticketB.updatedAt else ticketB.createdAt) :=
  ((C8_observation_emission_amended srvOrgDown srvCfDown CommonLabels now0 caches0 ticketB
    st0 (by decide)).1 labelsB caches0 rfl).2.2.2.1

/-- C8 counterexample: ticket D passes the age filter and has a non-zero
`updated_at`, yet when its organization lookup fails the `continue` at the
call site skips the whole ticket — the state is returned unchanged (the
updated vector stays empty), so "the updated gauge is always set" is false
for a ticket that passes the age filter. -/
theorem C8_observation_emission_counterexample :
    skipTicket ticketD.createdAt now0 = false ∧
    ticketD.updatedAt ≠ 0 ∧
    processTicket srvOrgDown srvCfDown CommonLabels now0 caches0 ticketD st0 =
      some (caches0, st0, []) ∧
    st0.updated = [] :=
  ⟨by decide, by decide, rfl, rfl⟩

/-- C9: a ticket whose `CreatedAt` is 0 is always excluded by the age filter
(epoch 0 plus one calendar year, 1971-01-01, is in the past at any current
time after it), so the ticket emits no observation at all — its non-zero
`DeletedAt`, `UpdatedAt` and `ResolvedTime` are never published. -/
theorem C9_zero_created_excluded (srvO : Int → ApiResult RespGetOrganization)
    (srvC : Int → ApiResult RespGetCustomField) (gl : List String) (now : Int)
    (caches : Caches) (t : Ticket) (st : GaugeState)
    (hc : t.createdAt = 0) (hnow : 365 * 86400 < now) :
    skipTicket t.createdAt now = true ∧
    processTicket srvO srvC gl now caches t st = some (caches, st, []) := by
  have h0 : addDate1Year 0 = 365 * 86400 := by decide
  have hsk : skipTicket t.createdAt now = true := by
    rw [hc]
    unfold skipTicket
    rw [h0]
    exact decide_eq_true hnow
  refine ⟨hsk, ?_⟩
  unfold processTicket
  simp only [hsk, if_true]

/-- C9 witness: ticket C (`created_at = 0`, non-zero deleted/updated/resolved
times) is skipped and writes nothing. -/
theorem C9_zero_created_excluded_witness :
    skipTicket ticketC.createdAt 1000000000 = true ∧
    processTicket srvOrgDown srvCfDown CommonLabels 1000000000 caches0 ticketC st0 =
      some (caches0, st0, []) :=
  C9_zero_created_excluded srvOrgDown srvCfDown CommonLabels 1000000000 caches0 ticketC st0
    rfl (by norm_num)

/-- C10: whenever `getOrganization` returns without an error, the returned
envelope's `Data` pointer is non-nil — the cache-hit path constructs it and
the fetch path dereferences `Data` (crashing on nil) before returning — so
the call-site nil-check in `collectMetrics` never takes its false branch. -/
theorem C10_org_data_nonnil (srv : Int → ApiResult RespGetOrganization) (cache : OrgCache)
    (id : Int) (resp : RespGetOrganization) (c : OrgCache) (n : Nat)
    (h : getOrganization srv cache id = (.ok resp, c, n)) : resp.data.isSome := by
  unfold getOrganization at h
  by_cases hc : cache id ≠ orgZero
  · rw [if_pos hc] at h
    simp only [Prod.mk.injEq, OrgOutcome.ok.injEq] at h
    obtain ⟨h1, -⟩ := h
    subst h1
    rfl
  · rw [if_neg hc] at h
    cases hs : srv id <;> rw [hs] at h <;> simp only [] at h
    · simp at h
    · simp at h
    · rename_i r
      cases hd : r.data <;> rw [hd] at h
      · simp at h
      · rename_i o
        simp only [Prod.mk.injEq, OrgOutcome.ok.injEq] at h
        obtain ⟨h1, -⟩ := h
        subst h1
        simp [hd]

/-- C10 witness: a fetched envelope returned by `getOrganization` has
non-nil data. -/
theorem C10_org_data_nonnil_witness :
    (⟨"s", "m", some ⟨1, "a"⟩⟩ : RespGetOrganization).data.isSome :=
  C10_org_data_nonnil srvOrgPlain (fun _ => orgZero) 1 ⟨"s", "m", some ⟨1, "a"⟩⟩
    (fun j => if j = 1 then ⟨1, "a"⟩ else (fun _ => orgZero) j) 1 rfl

end SP
